import Mathlib

/-! # The `vultr_instances` data source: a shallow embedding of its read path

Source: `src/vultr/data_source_vultr_instances.go`.

`dataSourceVultrInstancesRead` is sequential code talking to an API client and
to the host's resource data.  It is embedded with explicit state passing:

* the API client is a family of functions of the *history* of calls issued so
  far, so a client may answer the same request differently on different calls;
* every call the read issues is appended to that history, which therefore also
  serves as the trace of the run;
* the resource data carries the configuration that is read (`filter`), the two
  things the read writes (the identifier and the `instances` attribute) and a
  ghost log of the writes;
* the pagination loop is the only unbounded loop; it is given fuel, and the
  read returns `none` only when that fuel runs out.

Helpers of the package that live in other files (`structToMap`, `filterLoop`,
`buildVultrDataSourceFilter`, `backupStatus`, `getVPCs`) are parameters.
-/

namespace Vultr

/-! ## Data model -/

/-- The fields of `govultr.Instance` that the data source reads. -/
structure Instance where
  ID : String
  Os : String
  RAM : Int
  Disk : Int
  MainIP : String
  VCPUCount : Int
  Region : String
  DateCreated : String
  AllowedBandwidth : Int
  NetmaskV4 : String
  GatewayV4 : String
  Status : String
  PowerStatus : String
  ServerStatus : String
  Plan : String
  Label : String
  InternalIP : String
  KVM : String
  Tag : String
  Tags : List String
  OsID : Int
  AppID : Int
  ImageID : String
  FirewallGroupID : String
  V6Network : String
  V6MainIP : String
  V6NetworkSize : Int
  Features : List String
  Hostname : String
deriving DecidableEq, Repr

/-- The `Links` part of `govultr.Meta`. -/
structure Links where
  Next : String
deriving DecidableEq, Repr

/-- The part of `govultr.Meta` the pagination loop reads. -/
structure Meta where
  Links : Links
deriving DecidableEq, Repr

/-- The record `govultr.BackupSchedule`; `Enabled` is a `*bool`, and the field
`Type` is written `ScheduleType`. -/
structure BackupSchedule where
  Enabled : Option Bool
  ScheduleType : String
  Hour : Int
  Dom : Int
  Dow : Int
deriving DecidableEq, Repr

/-- A Go `interface{}` value as it occurs in the output of the data source. -/
inductive Value where
  | str : String → Value
  | int : Int → Value
  | strs : List String → Value
  | map : List (String × Value) → Value

/-- A Go `map[string]interface{}` literal, in the order the source writes it. -/
abbrev OutMap := List (String × Value)

/-- The names of the entries of a map literal. -/
def keys (m : OutMap) : List String := m.map Prod.fst

/-- Severity of a diagnostic (`diag.Severity`). -/
inductive Severity where
  | Error
  | Warning
deriving DecidableEq, Repr

/-- One entry of `diag.Diagnostics`. -/
structure Diagnostic where
  Severity : Severity
  Summary : String
  Detail : String
deriving DecidableEq, Repr

/-- The type `diag.Diagnostics`; `nil` is the empty list. -/
abbrev Diagnostics := List Diagnostic

/-- `diag.Errorf` after formatting: one error diagnostic carrying the message. -/
def Errorf (msg : String) : Diagnostics := [⟨Severity.Error, msg, ""⟩]

/-- `diag.FromErr` at a non-nil error whose message is `err`. -/
def FromErr (err : String) : Diagnostics := [⟨Severity.Error, err, ""⟩]

/-! ## `strconv.Itoa` and `strconv.Atoi` -/

/-- The character of a decimal digit. -/
def digitChar (d : Nat) : Char := Char.ofNat (48 + d)

/-- Decimal digits of `n`, most significant first, in front of `acc`. -/
def natDigits : Nat → Nat → List Char → List Char
  | 0, _, acc => acc
  | fuel + 1, n, acc =>
    if n < 10 then digitChar n :: acc
    else natDigits fuel (n / 10) (digitChar (n % 10) :: acc)

/-- Decimal rendering of a natural number. -/
def natStr (n : Nat) : List Char := natDigits (n + 1) n []

/-- `strconv.Itoa`: base-10 rendering, with a leading `-` for negative values. -/
def Itoa (i : Int) : String :=
  if i < 0 then String.mk ('-' :: natStr (-i).toNat) else String.mk (natStr i.toNat)

/-- Helpers of the package that are defined outside this file, and the one
standard-library function whose result depends on the text it is given. -/
structure Env (Cfg F SM : Type) where
  /-- The function `buildVultrDataSourceFilter`, from the configured filter set. -/
  buildVultrDataSourceFilter : Cfg → F
  /-- The function `structToMap`: fails with an error message or gives the flattened record. -/
  structToMap : Instance → Except String SM
  /-- The function `filterLoop`. -/
  filterLoop : F → SM → Bool
  /-- The function `backupStatus`, applied to `schedule.Enabled`. -/
  backupStatus : Option Bool → String
  /-- The function `fmt.Sprintf` applied to a format string and no operands. -/
  Sprintf : String → String

/-- A call issued to the API client. -/
inductive Call where
  | List (cursor : String)
  | GetBackupSchedule (id : String)
  | getVPCs (id : String)
deriving DecidableEq, Repr

/-- The API client.  Each operation sees the calls issued before it, so the
answers may change from call to call. -/
structure Client where
  /-- The call `client.Instance.List(ctx, options)` at `options.Cursor`. -/
  InstanceList : List Call → String → Except String (List Instance × Meta)
  /-- The call `client.Instance.GetBackupSchedule(ctx, id)`. -/
  GetBackupSchedule : List Call → String → Except String BackupSchedule
  /-- The call `getVPCs(client, id)`. -/
  getVPCs : List Call → String → Except String (List String)

/-- A write to the resource data. -/
inductive Write where
  | SetId (id : String)
  | Set (key : String) (value : List OutMap)

/-- The part of `schema.ResourceData` the read touches. -/
structure ResourceData (Cfg : Type) where
  /-- The result of `d.GetOk("filter")`: `none` when it reports not-ok. -/
  filter : Option Cfg
  /-- The identifier. -/
  Id : String
  /-- The attribute `instances`, `none` while unset. -/
  instances : Option (List OutMap)
  /-- Ghost: the writes performed so far. -/
  writes : List Write

/-- The method `d.SetId`. -/
def ResourceData.SetId {Cfg : Type} (d : ResourceData Cfg) (id : String) : ResourceData Cfg :=
  { d with Id := id, writes := d.writes ++ [Write.SetId id] }

/-- The method `d.Set("instances", v)`. -/
def ResourceData.SetInstances {Cfg : Type} (d : ResourceData Cfg) (v : List OutMap) :
    ResourceData Cfg :=
  { d with instances := some v, writes := d.writes ++ [Write.Set "instances" v] }

/-- State threaded through a read: the calls issued so far and the resource data. -/
structure State (Cfg : Type) where
  trace : List Call
  d : ResourceData Cfg

/-! ## The schema -/

/-- Field names of the element schema of `instances` in `dataSourceVultrInstances`,
in the order they are declared. -/
def dataSourceVultrInstances : List String :=
  ["os", "ram", "disk", "main_ip", "vcpu_count", "location", "region", "date_created",
   "allowed_bandwidth", "netmask_v4", "gateway_v4", "status", "power_status",
   "server_status", "plan", "v6_network", "v6_main_ip", "v6_network_size", "label",
   "internal_ip", "kvm", "backups", "tag", "tags", "os_id", "app_id", "image_id",
   "firewall_group_id", "features", "backups_schedule", "hostname",
   "private_network_ids", "vpc_ids"]

/-! ## The read -/

/-- The map `bsInfo` built from a backup schedule. -/
def bsInfo (schedule : BackupSchedule) : OutMap :=
  [("type", Value.str schedule.ScheduleType),
   ("hour", Value.str (Itoa schedule.Hour)),
   ("dom", Value.str (Itoa schedule.Dom)),
   ("dow", Value.str (Itoa schedule.Dow))]

/-- The map appended to `serverDetails` for one server. -/
def serverDetail (backupStatus : Option Bool → String) (server : Instance)
    (schedule : BackupSchedule) (vpcs : List String) : OutMap :=
  [("os", Value.str server.Os),
   ("ram", Value.int server.RAM),
   ("disk", Value.int server.Disk),
   ("main_ip", Value.str server.MainIP),
   ("vcpu_count", Value.int server.VCPUCount),
   ("region", Value.str server.Region),
   ("date_created", Value.str server.DateCreated),
   ("allowed_bandwidth", Value.int server.AllowedBandwidth),
   ("netmask_v4", Value.str server.NetmaskV4),
   ("gateway_v4", Value.str server.GatewayV4),
   ("status", Value.str server.Status),
   ("power_status", Value.str server.PowerStatus),
   ("server_status", Value.str server.ServerStatus),
   ("plan", Value.str server.Plan),
   ("label", Value.str server.Label),
   ("internal_ip", Value.str server.InternalIP),
   ("kvm", Value.str server.KVM),
   ("tag", Value.str server.Tag),
   ("tags", Value.strs server.Tags),
   ("os_id", Value.int server.OsID),
   ("app_id", Value.int server.AppID),
   ("image_id", Value.str server.ImageID),
   ("firewall_group_id", Value.str server.FirewallGroupID),
   ("v6_network", Value.str server.V6Network),
   ("v6_main_ip", Value.str server.V6MainIP),
   ("v6_network_size", Value.int server.V6NetworkSize),
   ("features", Value.strs server.Features),
   ("hostname", Value.str server.Hostname),
   ("backups", Value.str (backupStatus schedule.Enabled)),
   ("backups_schedule", Value.map (bsInfo schedule)),
   ("private_network_ids", Value.strs vpcs),
   ("vpc_ids", Value.strs vpcs)]

/-- The inner loop `for _, s := range servers`: flatten each record, keep the
ones the filter accepts, stop at the first record that cannot be flattened. -/
def filterPage {F SM : Type} (structToMap : Instance → Except String SM)
    (filterLoop : F → SM → Bool) (f : F) :
    List Instance → List Instance → Except String (List Instance)
  | [], serverList => Except.ok serverList
  | s :: rest, serverList =>
    match structToMap s with
    | Except.error err => Except.error err
    | Except.ok sm =>
      if filterLoop f sm then filterPage structToMap filterLoop f rest (serverList ++ [s])
      else filterPage structToMap filterLoop f rest serverList

/-- The pagination loop `for { ... }`, one iteration per unit of fuel.  The
arguments are the cursor in `options`, the calls issued so far and the
accumulated `serverList`. -/
def fetchLoop {F SM : Type} (structToMap : Instance → Except String SM)
    (filterLoop : F → SM → Bool) (client : Client) (f : F) :
    Nat → String → List Call → List Instance →
      Option (Except Diagnostics (List Instance) × List Call)
  | 0, _, _, _ => none
  | fuel + 1, cursor, trace, serverList =>
    match client.InstanceList trace cursor with
    | Except.error err =>
      some (Except.error (Errorf ("error getting servers: " ++ err)), trace ++ [Call.List cursor])
    | Except.ok (servers, listMeta) =>
      match filterPage structToMap filterLoop f servers serverList with
      | Except.error err => some (Except.error (FromErr err), trace ++ [Call.List cursor])
      | Except.ok serverList' =>
        if listMeta.Links.Next = "" then some (Except.ok serverList', trace ++ [Call.List cursor])
        else fetchLoop structToMap filterLoop client f fuel listMeta.Links.Next
          (trace ++ [Call.List cursor]) serverList'

/-- The enrichment loop `for _, server := range serverList`. -/
def enrichLoop (backupStatus : Option Bool → String) (Sprintf : String → String)
    (client : Client) :
    List Instance → List Call → List OutMap → Except Diagnostics (List OutMap) × List Call
  | [], trace, serverDetails => (Except.ok serverDetails, trace)
  | server :: rest, trace, serverDetails =>
    match client.GetBackupSchedule trace server.ID with
    | Except.error err =>
      (Except.error (Errorf ("error getting backup schedule: " ++ err)),
        trace ++ [Call.GetBackupSchedule server.ID])
    | Except.ok schedule =>
      match client.getVPCs (trace ++ [Call.GetBackupSchedule server.ID]) server.ID with
      | Except.error err =>
        (Except.error (Errorf (Sprintf err)),
          trace ++ [Call.GetBackupSchedule server.ID] ++ [Call.getVPCs server.ID])
      | Except.ok vpcs =>
        enrichLoop backupStatus Sprintf client rest
          (trace ++ [Call.GetBackupSchedule server.ID] ++ [Call.getVPCs server.ID])
          (serverDetails ++ [serverDetail backupStatus server schedule vpcs])

/-- The function `dataSourceVultrInstancesRead`.  The result is the returned
diagnostics and the state after the call; `none` when the pagination loop has
not ended within `fuel` iterations. -/
def dataSourceVultrInstancesRead {Cfg F SM : Type} (env : Env Cfg F SM) (client : Client)
    (fuel : Nat) (st : State Cfg) : Option (Diagnostics × State Cfg) :=
  match st.d.filter with
  | none => some (Errorf "issue with filter: false", st)
  | some filters =>
    match fetchLoop env.structToMap env.filterLoop client
        (env.buildVultrDataSourceFilter filters) fuel "" st.trace [] with
    | none => none
    | some (Except.error diags, trace) => some (diags, { st with trace := trace })
    | some (Except.ok serverList, trace) =>
      if serverList.length < 1 then
        some (Errorf "no results were found", { st with trace := trace })
      else
        match enrichLoop env.backupStatus env.Sprintf client serverList trace [] with
        | (Except.error diags, trace') => some (diags, { st with trace := trace' })
        | (Except.ok serverDetails, trace') =>
          some ([], { trace := trace', d := (st.d.SetId "instances").SetInstances serverDetails })

/-! ## Vocabulary for the statements -/

/-- A page as `client.Instance.List` returns it: the records and the link data. -/
abbrev Page := List Instance × Meta

/-- The records of a sequence of pages, in order. -/
def records : List Page → List Instance
  | [] => []
  | p :: ps => p.1 ++ records ps

/-- The cursors of the calls that fetch `pages`, the first call using `c` and
each later call the `next` cursor of the page before. -/
def cursors (c : String) : List Page → List String
  | [] => []
  | p :: ps => c :: cursors p.2.Links.Next ps

/-- The cursor in `options` once `pages` have been fetched starting from `c`. -/
def cursorAfter (c : String) : List Page → String
  | [] => c
  | p :: ps => cursorAfter p.2.Links.Next ps

/-- The history once `pages` have been fetched starting from `c`. -/
def traceAfter (h : List Call) (c : String) (pages : List Page) : List Call :=
  h ++ (cursors c pages).map Call.List

/-- The history once `pages` and then one more page have been requested,
starting from the empty cursor. -/
def fetchedTrace (h : List Call) (pages : List Page) : List Call :=
  traceAfter h "" pages ++ [Call.List (cursorAfter "" pages)]

/-- Starting from history `h` and cursor `c`, the successive `List` calls
return exactly `pages`, each with a non-empty `next` cursor. -/
def Fetched (client : Client) : List Call → String → List Page → Prop
  | _, _, [] => True
  | h, c, p :: ps =>
    client.InstanceList h c = Except.ok p ∧ p.2.Links.Next ≠ "" ∧
      Fetched client (h ++ [Call.List c]) p.2.Links.Next ps

/-- The test `filterLoop(f, structToMap(r))`, false when `structToMap` fails. -/
def accepts {Cfg F SM : Type} (env : Env Cfg F SM) (f : F) (r : Instance) : Bool :=
  match env.structToMap r with
  | Except.ok sm => env.filterLoop f sm
  | Except.error _ => false

/-- The two lookups issued for one server. -/
def lookupCalls (server : Instance) : List Call :=
  [Call.GetBackupSchedule server.ID, Call.getVPCs server.ID]

/-- The history once the servers of a list have been enriched. -/
def enrichTrace (h : List Call) : List Instance → List Call
  | [] => h
  | s :: ss => enrichTrace (h ++ lookupCalls s) ss

/-- Starting from history `h`, both lookups succeed for every server of the list. -/
def Enriched (client : Client) : List Call → List Instance → Prop
  | _, [] => True
  | h, s :: ss =>
    (∃ schedule, client.GetBackupSchedule h s.ID = Except.ok schedule) ∧
    (∃ vpcs, client.getVPCs (h ++ [Call.GetBackupSchedule s.ID]) s.ID = Except.ok vpcs) ∧
      Enriched client (h ++ lookupCalls s) ss

/-- The map `m` is the projection of the record `r` with a backup schedule and
a list of VPC identifiers that the client returned for the identifier of `r`. -/
def ProjectionOf {Cfg F SM : Type} (env : Env Cfg F SM) (client : Client)
    (r : Instance) (m : OutMap) : Prop :=
  ∃ h schedule vpcs,
    client.GetBackupSchedule h r.ID = Except.ok schedule ∧
    client.getVPCs (h ++ [Call.GetBackupSchedule r.ID]) r.ID = Except.ok vpcs ∧
    m = serverDetail env.backupStatus r schedule vpcs

/-- An instance record with the given identifier and region. -/
def exampleInstance (id region : String) : Instance :=
  { ID := id, Os := "Debian", RAM := 1024, Disk := 25, MainIP := "192.0.2.1", VCPUCount := 1,
    Region := region, DateCreated := "", AllowedBandwidth := 1000, NetmaskV4 := "",
    GatewayV4 := "", Status := "active", PowerStatus := "running", ServerStatus := "ok",
    Plan := "vc2-1c-1gb", Label := id, InternalIP := "", KVM := "", Tag := "", Tags := [],
    OsID := 352, AppID := 0, ImageID := "", FirewallGroupID := "", V6Network := "",
    V6MainIP := "", V6NetworkSize := 0, Features := [], Hostname := id }

/-- Helpers for the fake runs: the filter is a list of allowed regions, the
flattened record is the region, and the record `bad` cannot be flattened. -/
def exampleEnv : Env (List String) (List String) String :=
  { buildVultrDataSourceFilter := fun cfg => cfg
    structToMap := fun r =>
      if r.ID = "bad" then Except.error "unsupported type" else Except.ok r.Region
    filterLoop := fun f sm => f.contains sm
    backupStatus := fun enabled => if enabled = some true then "enabled" else "disabled"
    Sprintf := fun s => s }

/-- A backup schedule with a zero and a negative field. -/
def exampleSchedule : BackupSchedule :=
  { Enabled := some true, ScheduleType := "weekly", Hour := 10, Dom := 0, Dow := -3 }

/-- The first two pages of the paged fake client. -/
def examplePages : List Page :=
  [([exampleInstance "a" "ewr", exampleInstance "b" "ams"], ⟨⟨"p2"⟩⟩),
   ([exampleInstance "c" "ewr"], ⟨⟨"p3"⟩⟩)]

/-- The third and last page of the paged fake client. -/
def exampleLast : Page := ([exampleInstance "d" "lax"], ⟨⟨""⟩⟩)

/-- A fake client serving three pages, with lookups that succeed. -/
def pagedClient : Client :=
  { InstanceList := fun _ c =>
      if c = "" then
        Except.ok ([exampleInstance "a" "ewr", exampleInstance "b" "ams"], ⟨⟨"p2"⟩⟩)
      else if c = "p2" then Except.ok ([exampleInstance "c" "ewr"], ⟨⟨"p3"⟩⟩)
      else if c = "p3" then Except.ok ([exampleInstance "d" "lax"], ⟨⟨""⟩⟩)
      else Except.error "invalid cursor"
    GetBackupSchedule := fun _ _ => Except.ok exampleSchedule
    getVPCs := fun _ id => Except.ok ["vpc-" ++ id] }

/-- A fake client whose `List` succeeds on the first call only: it fails as soon
as an earlier call is in the history. -/
def secondCallFails : Client :=
  { InstanceList := fun h _ =>
      if h = [] then
        Except.ok ([exampleInstance "a" "ewr", exampleInstance "b" "ams"], ⟨⟨"p2"⟩⟩)
      else Except.error "rate limited"
    GetBackupSchedule := fun _ _ => Except.ok exampleSchedule
    getVPCs := fun _ id => Except.ok ["vpc-" ++ id] }

/-- The paged fake client with a backup-schedule lookup that fails for `c`. -/
def scheduleFails : Client :=
  { pagedClient with
    GetBackupSchedule := fun _ id =>
      if id = "c" then Except.error "timeout" else Except.ok exampleSchedule }

/-- A fake client whose second page holds a record that cannot be flattened. -/
def badRecordClient : Client :=
  { InstanceList := fun _ c =>
      if c = "" then Except.ok ([exampleInstance "a" "ewr"], ⟨⟨"p2"⟩⟩)
      else Except.ok ([exampleInstance "b" "ewr", exampleInstance "bad" "ewr",
        exampleInstance "c" "ewr"], ⟨⟨"p3"⟩⟩)
    GetBackupSchedule := fun _ _ => Except.ok exampleSchedule
    getVPCs := fun _ id => Except.ok ["vpc-" ++ id] }

/-- A fresh state: no call issued, nothing written, the given `filter`. -/
def exampleState (filter : Option (List String)) : State (List String) :=
  { trace := [], d := { filter := filter, Id := "", instances := none, writes := [] } }

/-! ## Decimal rendering and parsing -/

theorem traceAfter_cons (h : List Call) (c : String) (p : Page) (ps : List Page) :
    traceAfter (h ++ [Call.List c]) p.2.Links.Next ps = traceAfter h c (p :: ps) := by
  simp [traceAfter, cursors]

theorem traceAfter_nil (h : List Call) (c : String) : traceAfter h c [] = h := by
  simp [traceAfter, cursors]

theorem traceAfter_snoc (h : List Call) (c : String) (pages : List Page) :
    traceAfter h c pages ++ [Call.List (cursorAfter c pages)] =
      h ++ (cursors c pages ++ [cursorAfter c pages]).map Call.List := by
  simp [traceAfter]

/-- When every record of a page can be flattened, the inner loop appends the
accepted records of the page, in order. -/
theorem filterPage_ok {Cfg F SM : Type} (env : Env Cfg F SM) (f : F) :
    ∀ (servers serverList : List Instance),
      (∀ r ∈ servers, ∃ sm, env.structToMap r = Except.ok sm) →
      filterPage env.structToMap env.filterLoop f servers serverList =
        Except.ok (serverList ++ servers.filter (accepts env f)) := by
  intro servers
  induction servers with
  | nil => intro serverList _; simp [filterPage]
  | cons s rest ih =>
    intro serverList hmap
    obtain ⟨sm, hsm⟩ := hmap s (List.mem_cons_self _ _)
    have hrest : ∀ r ∈ rest, ∃ sm, env.structToMap r = Except.ok sm :=
      fun r hr => hmap r (List.mem_cons_of_mem _ hr)
    have hacc : accepts env f s = env.filterLoop f sm := by simp [accepts, hsm]
    cases hf : env.filterLoop f sm with
    | true =>
      have hacc' : accepts env f s = true := by rw [hacc, hf]
      simp [filterPage, hsm, hf, ih _ hrest, List.filter_cons, hacc']
    | false =>
      have hacc' : accepts env f s = false := by rw [hacc, hf]
      simp [filterPage, hsm, hf, ih _ hrest, List.filter_cons, hacc']

/-- The inner loop stops at the first record that cannot be flattened. -/
theorem filterPage_error {Cfg F SM : Type} (env : Env Cfg F SM) (f : F) (bad : Instance)
    (post : List Instance) (err : String) (hbad : env.structToMap bad = Except.error err) :
    ∀ (pre serverList : List Instance),
      (∀ r ∈ pre, ∃ sm, env.structToMap r = Except.ok sm) →
      filterPage env.structToMap env.filterLoop f (pre ++ bad :: post) serverList =
        Except.error err := by
  intro pre
  induction pre with
  | nil => intro serverList _; simp [filterPage, hbad]
  | cons s rest ih =>
    intro serverList hmap
    obtain ⟨sm, hsm⟩ := hmap s (List.mem_cons_self _ _)
    have hrest : ∀ r ∈ rest, ∃ sm, env.structToMap r = Except.ok sm :=
      fun r hr => hmap r (List.mem_cons_of_mem _ hr)
    cases hf : env.filterLoop f sm <;> simp [filterPage, hsm, hf, ih _ hrest]

/-- Fetching pages that all carry a `next` cursor consumes one unit of fuel per
page and leaves the loop at the cursor of the last page. -/
theorem fetchLoop_fetched {Cfg F SM : Type} (env : Env Cfg F SM) (client : Client) (f : F)
    (fuel : Nat) :
    ∀ (pages : List Page) (h : List Call) (c : String) (serverList : List Instance),
      Fetched client h c pages →
      (∀ r ∈ records pages, ∃ sm, env.structToMap r = Except.ok sm) →
      fetchLoop env.structToMap env.filterLoop client f (pages.length + fuel) c h serverList =
        fetchLoop env.structToMap env.filterLoop client f fuel (cursorAfter c pages)
          (traceAfter h c pages) (serverList ++ (records pages).filter (accepts env f)) := by
  intro pages
  induction pages with
  | nil => intro h c serverList _ _; simp [records, cursorAfter, traceAfter_nil]
  | cons p ps ih =>
    intro h c serverList hf hmap
    obtain ⟨hcall, hnext, hrest⟩ := hf
    have hmap1 : ∀ r ∈ p.1, ∃ sm, env.structToMap r = Except.ok sm :=
      fun r hr => hmap r (by simp [records, hr])
    have hmap2 : ∀ r ∈ records ps, ∃ sm, env.structToMap r = Except.ok sm :=
      fun r hr => hmap r (by simp [records, hr])
    have hlen : (p :: ps).length + fuel = (ps.length + fuel) + 1 := by simp; omega
    rw [hlen, fetchLoop, hcall]
    simp only [filterPage_ok env f p.1 serverList hmap1, hnext, if_false]
    rw [ih _ _ _ hrest hmap2, traceAfter_cons]
    simp [records, cursorAfter, List.filter_append, List.append_assoc]

/-- Pagination that ends: after `pages`, a last page with an empty `next`
cursor makes the loop return the accepted records of all pages, in order. -/
theorem fetchLoop_complete {Cfg F SM : Type} (env : Env Cfg F SM) (client : Client) (f : F)
    (fuel : Nat) (pages : List Page) (last : Page) (h : List Call)
    (hfuel : pages.length < fuel) (hpages : Fetched client h "" pages)
    (hlast : client.InstanceList (traceAfter h "" pages) (cursorAfter "" pages) = Except.ok last)
    (hend : last.2.Links.Next = "")
    (hmap : ∀ r ∈ records pages ++ last.1, ∃ sm, env.structToMap r = Except.ok sm) :
    fetchLoop env.structToMap env.filterLoop client f fuel "" h [] =
      some (Except.ok ((records pages ++ last.1).filter (accepts env f)),
        traceAfter h "" pages ++ [Call.List (cursorAfter "" pages)]) := by
  obtain ⟨k, rfl⟩ : ∃ k, fuel = pages.length + (k + 1) := ⟨fuel - pages.length - 1, by omega⟩
  have hmap1 : ∀ r ∈ records pages, ∃ sm, env.structToMap r = Except.ok sm :=
    fun r hr => hmap r (by simp [hr])
  have hmap2 : ∀ r ∈ last.1, ∃ sm, env.structToMap r = Except.ok sm :=
    fun r hr => hmap r (by simp [hr])
  rw [fetchLoop_fetched env client f (k + 1) pages h "" [] hpages hmap1, fetchLoop, hlast]
  simp only [filterPage_ok env f last.1 _ hmap2, hend, if_true]
  simp [List.filter_append]

/-- Pagination that fails at a `List` call: the loop returns the upstream
error and stops at that call. -/
theorem fetchLoop_list_error {Cfg F SM : Type} (env : Env Cfg F SM) (client : Client) (f : F)
    (fuel : Nat) (pages : List Page) (err : String) (h : List Call)
    (hfuel : pages.length < fuel) (hpages : Fetched client h "" pages)
    (hfail : client.InstanceList (traceAfter h "" pages) (cursorAfter "" pages) =
      Except.error err)
    (hmap : ∀ r ∈ records pages, ∃ sm, env.structToMap r = Except.ok sm) :
    fetchLoop env.structToMap env.filterLoop client f fuel "" h [] =
      some (Except.error (Errorf ("error getting servers: " ++ err)),
        traceAfter h "" pages ++ [Call.List (cursorAfter "" pages)]) := by
  obtain ⟨k, rfl⟩ : ∃ k, fuel = pages.length + (k + 1) := ⟨fuel - pages.length - 1, by omega⟩
  rw [fetchLoop_fetched env client f (k + 1) pages h "" [] hpages hmap, fetchLoop, hfail]

/-- Pagination that meets a record which cannot be flattened: the loop returns
that error and stops at the call that fetched the record. -/
theorem fetchLoop_map_error {Cfg F SM : Type} (env : Env Cfg F SM) (client : Client) (f : F)
    (fuel : Nat) (pages : List Page) (pre post : List Instance) (bad : Instance)
    (listMeta : Meta) (err : String) (h : List Call)
    (hfuel : pages.length < fuel) (hpages : Fetched client h "" pages)
    (hpage : client.InstanceList (traceAfter h "" pages) (cursorAfter "" pages) =
      Except.ok (pre ++ bad :: post, listMeta))
    (hmap : ∀ r ∈ records pages ++ pre, ∃ sm, env.structToMap r = Except.ok sm)
    (hbad : env.structToMap bad = Except.error err) :
    fetchLoop env.structToMap env.filterLoop client f fuel "" h [] =
      some (Except.error (FromErr err),
        traceAfter h "" pages ++ [Call.List (cursorAfter "" pages)]) := by
  obtain ⟨k, rfl⟩ : ∃ k, fuel = pages.length + (k + 1) := ⟨fuel - pages.length - 1, by omega⟩
  have hmap1 : ∀ r ∈ records pages, ∃ sm, env.structToMap r = Except.ok sm :=
    fun r hr => hmap r (by simp [hr])
  have hmap2 : ∀ r ∈ pre, ∃ sm, env.structToMap r = Except.ok sm :=
    fun r hr => hmap r (by simp [hr])
  rw [fetchLoop_fetched env client f (k + 1) pages h "" [] hpages hmap1, fetchLoop, hpage]
  simp only [filterPage_error env f bad post err hbad pre _ hmap2]

/-- An error returned by the pagination loop is never the empty diagnostics. -/
theorem fetchLoop_error_ne_nil {Cfg F SM : Type} (env : Env Cfg F SM) (client : Client) (f : F) :
    ∀ (fuel : Nat) (c : String) (h : List Call) (serverList : List Instance)
      (diags : Diagnostics) (trace : List Call),
      fetchLoop env.structToMap env.filterLoop client f fuel c h serverList =
        some (Except.error diags, trace) → diags ≠ [] := by
  intro fuel
  induction fuel with
  | zero => intro c h serverList diags trace hrun; simp [fetchLoop] at hrun
  | succ fuel ih =>
    intro c h serverList diags trace hrun
    rw [fetchLoop] at hrun
    split at hrun
    · simp only [Option.some.injEq, Prod.mk.injEq, Except.error.injEq] at hrun
      rw [← hrun.1]; simp [Errorf]
    · split at hrun
      · simp only [Option.some.injEq, Prod.mk.injEq, Except.error.injEq] at hrun
        rw [← hrun.1]; simp [FromErr]
      · split at hrun
        · simp at hrun
        · exact ih _ _ _ _ _ hrun

/-! ## Enrichment -/

theorem enrichTrace_append (h : List Call) (pre post : List Instance) :
    enrichTrace h (pre ++ post) = enrichTrace (enrichTrace h pre) post := by
  induction pre generalizing h with
  | nil => rfl
  | cons s ss ih => simp [enrichTrace, ih]

/-- When both lookups succeed for every server, the enrichment loop appends one
projection per server, in order. -/
theorem enrichLoop_ok {Cfg F SM : Type} (env : Env Cfg F SM) (client : Client) :
    ∀ (servers : List Instance) (h : List Call) (serverDetails : List OutMap),
      Enriched client h servers →
      ∃ out, List.Forall₂ (ProjectionOf env client) servers out ∧
        enrichLoop env.backupStatus env.Sprintf client servers h serverDetails =
          (Except.ok (serverDetails ++ out), enrichTrace h servers) := by
  intro servers
  induction servers with
  | nil => intro h serverDetails _; exact ⟨[], List.Forall₂.nil, by simp [enrichLoop, enrichTrace]⟩
  | cons s ss ih =>
    intro h serverDetails henr
    obtain ⟨⟨schedule, hs⟩, ⟨vpcs, hv⟩, hrest⟩ := henr
    have hrest' : Enriched client
        (h ++ [Call.GetBackupSchedule s.ID] ++ [Call.getVPCs s.ID]) ss := by
      simpa [lookupCalls] using hrest
    obtain ⟨out, hout, hrun⟩ :=
      ih _ (serverDetails ++ [serverDetail env.backupStatus s schedule vpcs]) hrest'
    refine ⟨serverDetail env.backupStatus s schedule vpcs :: out,
      List.Forall₂.cons ⟨h, schedule, vpcs, hs, hv, rfl⟩ hout, ?_⟩
    rw [enrichLoop, hs]
    simp only [hv]
    rw [hrun]
    simp [enrichTrace, lookupCalls]

/-- Servers whose lookups succeed are passed over by the enrichment loop,
which then continues with the rest of the list. -/
theorem enrichLoop_append {Cfg F SM : Type} (env : Env Cfg F SM) (client : Client)
    (rest : List Instance) :
    ∀ (pre : List Instance) (h : List Call) (serverDetails : List OutMap),
      Enriched client h pre →
      ∃ out, enrichLoop env.backupStatus env.Sprintf client (pre ++ rest) h serverDetails =
        enrichLoop env.backupStatus env.Sprintf client rest (enrichTrace h pre)
          (serverDetails ++ out) := by
  intro pre
  induction pre with
  | nil => intro h serverDetails _; exact ⟨[], by simp [enrichTrace]⟩
  | cons s ss ih =>
    intro h serverDetails henr
    obtain ⟨⟨schedule, hs⟩, ⟨vpcs, hv⟩, hrest⟩ := henr
    have hrest' : Enriched client
        (h ++ [Call.GetBackupSchedule s.ID] ++ [Call.getVPCs s.ID]) ss := by
      simpa [lookupCalls] using hrest
    obtain ⟨out, hrun⟩ :=
      ih _ (serverDetails ++ [serverDetail env.backupStatus s schedule vpcs]) hrest'
    refine ⟨serverDetail env.backupStatus s schedule vpcs :: out, ?_⟩
    rw [List.cons_append, enrichLoop, hs]
    simp only [hv]
    rw [hrun]
    simp [enrichTrace, lookupCalls]

/-- A failing backup-schedule lookup ends the enrichment loop at that call. -/
theorem enrichLoop_schedule_error {Cfg F SM : Type} (env : Env Cfg F SM) (client : Client)
    (pre post : List Instance) (r : Instance) (h : List Call) (err : String)
    (henr : Enriched client h pre)
    (hfail : client.GetBackupSchedule (enrichTrace h pre) r.ID = Except.error err) :
    enrichLoop env.backupStatus env.Sprintf client (pre ++ r :: post) h [] =
      (Except.error (Errorf ("error getting backup schedule: " ++ err)),
        enrichTrace h pre ++ [Call.GetBackupSchedule r.ID]) := by
  obtain ⟨out, hrun⟩ := enrichLoop_append env client (r :: post) pre h [] henr
  rw [hrun, enrichLoop, hfail]

/-- A failing VPC lookup ends the enrichment loop at that call. -/
theorem enrichLoop_vpcs_error {Cfg F SM : Type} (env : Env Cfg F SM) (client : Client)
    (pre post : List Instance) (r : Instance) (h : List Call) (schedule : BackupSchedule)
    (err : String) (henr : Enriched client h pre)
    (hs : client.GetBackupSchedule (enrichTrace h pre) r.ID = Except.ok schedule)
    (hfail : client.getVPCs (enrichTrace h pre ++ [Call.GetBackupSchedule r.ID]) r.ID =
      Except.error err) :
    enrichLoop env.backupStatus env.Sprintf client (pre ++ r :: post) h [] =
      (Except.error (Errorf (env.Sprintf err)), enrichTrace h pre ++ lookupCalls r) := by
  obtain ⟨out, hrun⟩ := enrichLoop_append env client (r :: post) pre h [] henr
  rw [hrun, enrichLoop, hs]
  simp only [hfail]
  simp [lookupCalls]

/-- Lookups that always succeed enrich every list of servers. -/
theorem enriched_of_total (client : Client)
    (hsched : ∀ h id, ∃ schedule, client.GetBackupSchedule h id = Except.ok schedule)
    (hvpc : ∀ h id, ∃ vpcs, client.getVPCs h id = Except.ok vpcs) :
    ∀ (servers : List Instance) (h : List Call), Enriched client h servers := by
  intro servers
  induction servers with
  | nil => intro h; trivial
  | cons s ss ih => intro h; exact ⟨hsched _ _, hvpc _ _, ih _⟩

/-- An error returned by the enrichment loop is never the empty diagnostics. -/
theorem enrichLoop_error_ne_nil {Cfg F SM : Type} (env : Env Cfg F SM) (client : Client) :
    ∀ (servers : List Instance) (h : List Call) (serverDetails : List OutMap)
      (diags : Diagnostics) (trace : List Call),
      enrichLoop env.backupStatus env.Sprintf client servers h serverDetails =
        (Except.error diags, trace) → diags ≠ [] := by
  intro servers
  induction servers with
  | nil => intro h serverDetails diags trace hrun; simp [enrichLoop] at hrun
  | cons s ss ih =>
    intro h serverDetails diags trace hrun
    rw [enrichLoop] at hrun
    split at hrun
    · simp only [Prod.mk.injEq, Except.error.injEq] at hrun
      rw [← hrun.1]; simp [Errorf]
    · split at hrun
      · simp only [Prod.mk.injEq, Except.error.injEq] at hrun
        rw [← hrun.1]; simp [Errorf]
      · exact ih _ _ _ _ hrun

/-! ## The read as a whole -/

/-- Every result of the read is either an error that leaves the resource data
as it was, or `nil` after the two writes. -/
theorem read_cases {Cfg F SM : Type} (env : Env Cfg F SM) (client : Client) (fuel : Nat)
    (st st' : State Cfg) (diags : Diagnostics)
    (hrun : dataSourceVultrInstancesRead env client fuel st = some (diags, st')) :
    (diags ≠ [] ∧ st'.d = st.d) ∨
      (diags = [] ∧ ∃ out, st'.d = (st.d.SetId "instances").SetInstances out) := by
  unfold dataSourceVultrInstancesRead at hrun
  split at hrun
  · simp only [Option.some.injEq, Prod.mk.injEq] at hrun
    left; rw [← hrun.1, ← hrun.2]; simp [Errorf]
  · split at hrun
    · simp at hrun
    · next hfetch =>
      simp only [Option.some.injEq, Prod.mk.injEq] at hrun
      left
      refine ⟨?_, by rw [← hrun.2]⟩
      rw [← hrun.1]
      exact fetchLoop_error_ne_nil env client _ _ _ _ _ _ _ hfetch
    · split at hrun
      · simp only [Option.some.injEq, Prod.mk.injEq] at hrun
        left; rw [← hrun.1, ← hrun.2]; simp [Errorf]
      · split at hrun
        · next henrich =>
          simp only [Option.some.injEq, Prod.mk.injEq] at hrun
          left
          refine ⟨?_, by rw [← hrun.2]⟩
          rw [← hrun.1]
          exact enrichLoop_error_ne_nil env client _ _ _ _ _ henrich
        · simp only [Option.some.injEq, Prod.mk.injEq] at hrun
          right
          exact ⟨hrun.1.symm, _, by rw [← hrun.2]⟩

/-- Claim C1.  Let the client answer the successive `List` calls with `pages`
(each with a non-empty `next` cursor) and then with a last page whose `next`
cursor is empty, let every record be flattened without error, let the two
lookups that the read issues for each accepted record succeed, and let at
least one record be accepted by the filter.  Then the read returns `nil`, and
the list it stores under `instances` has one entry per accepted record of the
concatenated pages, in that order, each entry being the projection of its
record. -/
theorem read_lists_accepted_records {Cfg F SM : Type} (env : Env Cfg F SM) (client : Client)
    (fuel : Nat) (st : State Cfg) (filters : Cfg) (pages : List Page) (last : Page)
    (hfilter : st.d.filter = some filters)
    (hfuel : pages.length < fuel)
    (hpages : Fetched client st.trace "" pages)
    (hlast : client.InstanceList (traceAfter st.trace "" pages) (cursorAfter "" pages) =
      Except.ok last)
    (hend : last.2.Links.Next = "")
    (hmap : ∀ r ∈ records pages ++ last.1, ∃ sm, env.structToMap r = Except.ok sm)
    (henr : Enriched client (fetchedTrace st.trace pages)
      ((records pages ++ last.1).filter (accepts env (env.buildVultrDataSourceFilter filters))))
    (hmatch : ∃ r ∈ records pages ++ last.1,
      accepts env (env.buildVultrDataSourceFilter filters) r = true) :
    ∃ out, dataSourceVultrInstancesRead env client fuel st =
        some ([], { trace := enrichTrace (fetchedTrace st.trace pages)
                      ((records pages ++ last.1).filter
                        (accepts env (env.buildVultrDataSourceFilter filters))),
                    d := (st.d.SetId "instances").SetInstances out }) ∧
      ((st.d.SetId "instances").SetInstances out).instances = some out ∧
      List.Forall₂ (ProjectionOf env client)
        ((records pages ++ last.1).filter (accepts env (env.buildVultrDataSourceFilter filters)))
        out := by
  obtain ⟨r, hr, hacc⟩ := hmatch
  have hlen : ¬ ((records pages ++ last.1).filter
      (accepts env (env.buildVultrDataSourceFilter filters))).length < 1 := by
    have hmem := List.mem_filter.mpr ⟨hr, hacc⟩
    have := List.length_pos_of_mem hmem
    omega
  obtain ⟨out, hout, henrich⟩ :=
    enrichLoop_ok env client _ (fetchedTrace st.trace pages) [] henr
  refine ⟨out, ?_, rfl, hout⟩
  unfold dataSourceVultrInstancesRead
  rw [hfilter]
  simp only [fetchLoop_complete env client _ fuel pages last st.trace hfuel hpages hlast hend
    hmap, hlen, if_false]
  rw [← fetchedTrace, henrich]
  simp only [List.nil_append]

/-- Claim C2.  Let the client answer the successive `List` calls with `pages`
and then a last page with an empty `next` cursor, let every record be flattened
without error and let the filter accept none of them (the pages may all be
empty).  Then the read returns the error `no results were found`, the resource
data is untouched, and the only calls issued are the `List` calls. -/
theorem read_no_match_is_error {Cfg F SM : Type} (env : Env Cfg F SM) (client : Client)
    (fuel : Nat) (st : State Cfg) (filters : Cfg) (pages : List Page) (last : Page)
    (hfilter : st.d.filter = some filters)
    (hfuel : pages.length < fuel)
    (hpages : Fetched client st.trace "" pages)
    (hlast : client.InstanceList (traceAfter st.trace "" pages) (cursorAfter "" pages) =
      Except.ok last)
    (hend : last.2.Links.Next = "")
    (hmap : ∀ r ∈ records pages ++ last.1, ∃ sm, env.structToMap r = Except.ok sm)
    (hnone : ∀ r ∈ records pages ++ last.1,
      accepts env (env.buildVultrDataSourceFilter filters) r = false) :
    dataSourceVultrInstancesRead env client fuel st =
      some (Errorf "no results were found",
        { trace := st.trace ++ (cursors "" pages ++ [cursorAfter "" pages]).map Call.List,
          d := st.d }) := by
  have hempty : (records pages ++ last.1).filter
      (accepts env (env.buildVultrDataSourceFilter filters)) = [] := by
    rw [List.filter_eq_nil_iff]
    intro r hr
    simp [hnone r hr]
  unfold dataSourceVultrInstancesRead
  rw [hfilter]
  simp only [fetchLoop_complete env client _ fuel pages last st.trace hfuel hpages hlast hend
    hmap, hempty, traceAfter_snoc]
  simp

/-- Claim C3.  Whatever the client does: when the read returns a non-empty
diagnostics the resource data is exactly what it was before the call (no
identifier and no `instances` written), and when it returns `nil` the resource
data is the old one after `SetId("instances")` and `Set("instances", ...)`. -/
theorem read_error_leaves_resource_data {Cfg F SM : Type} (env : Env Cfg F SM)
    (client : Client) (fuel : Nat) (st st' : State Cfg) (diags : Diagnostics)
    (hrun : dataSourceVultrInstancesRead env client fuel st = some (diags, st')) :
    (diags ≠ [] → st'.d = st.d ∧ st'.d.writes = st.d.writes) ∧
      (diags = [] → ∃ out, st'.d = (st.d.SetId "instances").SetInstances out ∧
        st'.d.writes = st.d.writes ++ [Write.SetId "instances", Write.Set "instances" out]) := by
  rcases read_cases env client fuel st st' diags hrun with ⟨hne, hd⟩ | ⟨hnil, out, hd⟩
  · exact ⟨fun _ => ⟨hd, by rw [hd]⟩, fun h => absurd h hne⟩
  · refine ⟨fun h => absurd hnil h, fun _ => ⟨out, hd, ?_⟩⟩
    rw [hd]
    simp [ResourceData.SetInstances, ResourceData.SetId]

/-- Claim C4.  Let the client answer the successive `List` calls with `pages`
(each with a non-empty `next` cursor, every record flattened without error) and
let the next `List` call fail with `err`.  Then the read returns the error
`error getting servers: err`, the resource data is untouched whatever the
earlier pages held, and the failing `List` call is the last call issued. -/
theorem read_list_error_aborts {Cfg F SM : Type} (env : Env Cfg F SM) (client : Client)
    (fuel : Nat) (st : State Cfg) (filters : Cfg) (pages : List Page) (err : String)
    (hfilter : st.d.filter = some filters)
    (hfuel : pages.length < fuel)
    (hpages : Fetched client st.trace "" pages)
    (hfail : client.InstanceList (traceAfter st.trace "" pages) (cursorAfter "" pages) =
      Except.error err)
    (hmap : ∀ r ∈ records pages, ∃ sm, env.structToMap r = Except.ok sm) :
    dataSourceVultrInstancesRead env client fuel st =
      some (Errorf ("error getting servers: " ++ err),
        { trace := st.trace ++ (cursors "" pages ++ [cursorAfter "" pages]).map Call.List,
          d := st.d }) := by
  unfold dataSourceVultrInstancesRead
  rw [hfilter]
  simp only [fetchLoop_list_error env client _ fuel pages err st.trace hfuel hpages hfail hmap,
    traceAfter_snoc]

/-- Claim C5.  Let pagination end normally, let the accepted records be
`pre ++ r :: post`, let both lookups succeed for the servers of `pre`, and let
the backup-schedule lookup of `r` fail, or succeed with the VPC lookup of `r`
failing.  Then the read returns a non-empty diagnostics, the resource data is
untouched (nothing of `pre` is returned), and the failing lookup is the last
call issued: no VPC lookup for `r` after a failed schedule lookup, and no
lookup for any server of `post`. -/
theorem read_lookup_failure_aborts {Cfg F SM : Type} (env : Env Cfg F SM) (client : Client)
    (fuel : Nat) (st : State Cfg) (filters : Cfg) (pages : List Page) (last : Page)
    (pre post : List Instance) (r : Instance)
    (hfilter : st.d.filter = some filters)
    (hfuel : pages.length < fuel)
    (hpages : Fetched client st.trace "" pages)
    (hlast : client.InstanceList (traceAfter st.trace "" pages) (cursorAfter "" pages) =
      Except.ok last)
    (hend : last.2.Links.Next = "")
    (hmap : ∀ r ∈ records pages ++ last.1, ∃ sm, env.structToMap r = Except.ok sm)
    (hmatched : (records pages ++ last.1).filter
      (accepts env (env.buildVultrDataSourceFilter filters)) = pre ++ r :: post)
    (henr : Enriched client (fetchedTrace st.trace pages) pre)
    (hfail :
      (∃ err, client.GetBackupSchedule (enrichTrace (fetchedTrace st.trace pages) pre) r.ID =
        Except.error err) ∨
      (∃ schedule err,
        client.GetBackupSchedule (enrichTrace (fetchedTrace st.trace pages) pre) r.ID =
          Except.ok schedule ∧
        client.getVPCs (enrichTrace (fetchedTrace st.trace pages) pre ++
          [Call.GetBackupSchedule r.ID]) r.ID = Except.error err)) :
    ∃ diags, diags ≠ [] ∧
      dataSourceVultrInstancesRead env client fuel st =
        some (diags,
          { trace := enrichTrace (fetchedTrace st.trace pages) pre ++
              (match client.GetBackupSchedule
                  (enrichTrace (fetchedTrace st.trace pages) pre) r.ID with
                | Except.error _ => [Call.GetBackupSchedule r.ID]
                | Except.ok _ => [Call.GetBackupSchedule r.ID, Call.getVPCs r.ID]),
            d := st.d }) := by
  have hlen : ¬ (pre ++ r :: post).length < 1 := by simp
  rcases hfail with ⟨err, hs⟩ | ⟨schedule, err, hs, hv⟩
  · refine ⟨Errorf ("error getting backup schedule: " ++ err), by simp [Errorf], ?_⟩
    unfold dataSourceVultrInstancesRead
    rw [hfilter]
    simp only [fetchLoop_complete env client _ fuel pages last st.trace hfuel hpages hlast hend
      hmap, hmatched, hlen, if_false]
    rw [← fetchedTrace, enrichLoop_schedule_error env client pre post r _ err henr hs, hs]
  · refine ⟨Errorf (env.Sprintf err), by simp [Errorf], ?_⟩
    unfold dataSourceVultrInstancesRead
    rw [hfilter]
    simp only [fetchLoop_complete env client _ fuel pages last st.trace hfuel hpages hlast hend
      hmap, hmatched, hlen, if_false]
    rw [← fetchedTrace, enrichLoop_vpcs_error env client pre post r _ schedule err henr hs hv, hs]
    simp [lookupCalls]

/-- Claim C6 (as the code behaves).  The element schema of `instances`
declares `location`, the map built for a server has no entry `location`, and
apart from that the names of the map are exactly the declared names, each once. -/
theorem serverDetail_keys_omit_location (backupStatus : Option Bool → String)
    (server : Instance) (schedule : BackupSchedule) (vpcs : List String) :
    "location" ∈ dataSourceVultrInstances ∧
      "location" ∉ keys (serverDetail backupStatus server schedule vpcs) ∧
      (keys (serverDetail backupStatus server schedule vpcs)).Perm
        (dataSourceVultrInstances.erase "location") := by
  have hkeys : keys (serverDetail backupStatus server schedule vpcs) =
      ["os", "ram", "disk", "main_ip", "vcpu_count", "region", "date_created",
       "allowed_bandwidth", "netmask_v4", "gateway_v4", "status", "power_status",
       "server_status", "plan", "label", "internal_ip", "kvm", "tag", "tags", "os_id",
       "app_id", "image_id", "firewall_group_id", "v6_network", "v6_main_ip",
       "v6_network_size", "features", "hostname", "backups", "backups_schedule",
       "private_network_ids", "vpc_ids"] := rfl
  rw [hkeys]
  refine ⟨by decide, by decide, by decide⟩

/-- Claim C7.  When `d.GetOk("filter")` reports not-ok the read returns the
error `issue with filter: false` at once, for any amount of fuel: the state
after the call is the state before it, so no call was issued and nothing was
written. -/
theorem read_without_filter {Cfg F SM : Type} (env : Env Cfg F SM) (client : Client)
    (fuel : Nat) (st : State Cfg) (hfilter : st.d.filter = none) :
    dataSourceVultrInstancesRead env client fuel st =
      some (Errorf "issue with filter: false", st) := by
  unfold dataSourceVultrInstancesRead
  rw [hfilter]

/-- Claim C9.  Whenever the read returns `nil`, the identifier of the resource
data is the constant non-empty string `instances`, whatever the filter, the
pages and the accepted records were. -/
theorem read_success_sets_constant_id {Cfg F SM : Type} (env : Env Cfg F SM)
    (client : Client) (fuel : Nat) (st st' : State Cfg)
    (hrun : dataSourceVultrInstancesRead env client fuel st = some ([], st')) :
    st'.d.Id = "instances" ∧ st'.d.Id ≠ "" := by
  rcases read_cases env client fuel st st' [] hrun with ⟨hne, _⟩ | ⟨_, out, hd⟩
  · exact absurd rfl hne
  · have hid : st'.d.Id = "instances" := by rw [hd]; rfl
    rw [hid]
    exact ⟨rfl, by decide⟩

/-- Claim C10.  Let the client answer the successive `List` calls with `pages`
(every record flattened without error) and then with a page `pre ++ bad :: post`
in which the records of `pre` are flattened without error and `structToMap`
fails on `bad` with `err`.  Then the read returns `err` as its diagnostics,
the resource data is untouched (no record is returned, `bad` is not skipped),
and the call that fetched `bad` is the last call issued. -/
theorem read_flatten_error_aborts {Cfg F SM : Type} (env : Env Cfg F SM) (client : Client)
    (fuel : Nat) (st : State Cfg) (filters : Cfg) (pages : List Page)
    (pre post : List Instance) (bad : Instance) (listMeta : Meta) (err : String)
    (hfilter : st.d.filter = some filters)
    (hfuel : pages.length < fuel)
    (hpages : Fetched client st.trace "" pages)
    (hpage : client.InstanceList (traceAfter st.trace "" pages) (cursorAfter "" pages) =
      Except.ok (pre ++ bad :: post, listMeta))
    (hmap : ∀ r ∈ records pages ++ pre, ∃ sm, env.structToMap r = Except.ok sm)
    (hbad : env.structToMap bad = Except.error err) :
    dataSourceVultrInstancesRead env client fuel st =
      some (FromErr err,
        { trace := st.trace ++ (cursors "" pages ++ [cursorAfter "" pages]).map Call.List,
          d := st.d }) := by
  unfold dataSourceVultrInstancesRead
  rw [hfilter]
  simp only [fetchLoop_map_error env client _ fuel pages pre post bad listMeta err st.trace
    hfuel hpages hpage hmap hbad, traceAfter_snoc]

/-! ## The theorems at the fake clients -/

/-- The fake `structToMap` fails on the record `bad` only. -/
theorem exampleEnv_structToMap_ok (records : List Instance)
    (hids : ∀ r ∈ records, r.ID ≠ "bad") :
    ∀ r ∈ records, ∃ sm, exampleEnv.structToMap r = Except.ok sm := by
  intro r hr
  exact ⟨r.Region, by simp [exampleEnv, hids r hr]⟩

theorem read_lists_accepted_records_witness :
    ∃ out, dataSourceVultrInstancesRead exampleEnv scheduleFails 3
          (exampleState (some ["ams", "lax"])) =
        some ([], { trace := enrichTrace
                      (fetchedTrace (exampleState (some ["ams", "lax"])).trace examplePages)
                      ((records examplePages ++ exampleLast.1).filter
                        (accepts exampleEnv
                          (exampleEnv.buildVultrDataSourceFilter ["ams", "lax"]))),
                    d := ((exampleState (some ["ams", "lax"])).d.SetId
                      "instances").SetInstances out }) ∧
      (((exampleState (some ["ams", "lax"])).d.SetId "instances").SetInstances out).instances =
        some out ∧
      List.Forall₂ (ProjectionOf exampleEnv scheduleFails)
        ((records examplePages ++ exampleLast.1).filter
          (accepts exampleEnv (exampleEnv.buildVultrDataSourceFilter ["ams", "lax"])))
        out :=
  read_lists_accepted_records exampleEnv scheduleFails 3 (exampleState (some ["ams", "lax"]))
    ["ams", "lax"] examplePages exampleLast rfl (by decide)
    ⟨rfl, by decide, rfl, by decide, trivial⟩ rfl rfl
    (exampleEnv_structToMap_ok _ (by decide))
    ⟨⟨_, rfl⟩, ⟨_, rfl⟩, ⟨_, rfl⟩, ⟨_, rfl⟩, trivial⟩
    ⟨exampleInstance "b" "ams", by decide, rfl⟩

theorem read_no_match_is_error_witness :
    dataSourceVultrInstancesRead exampleEnv pagedClient 3 (exampleState (some ["nrt"])) =
      some (Errorf "no results were found",
        { trace := (exampleState (some ["nrt"])).trace ++
            (cursors "" examplePages ++ [cursorAfter "" examplePages]).map Call.List,
          d := (exampleState (some ["nrt"])).d }) :=
  read_no_match_is_error exampleEnv pagedClient 3 (exampleState (some ["nrt"])) ["nrt"]
    examplePages exampleLast rfl (by decide) ⟨rfl, by decide, rfl, by decide, trivial⟩ rfl rfl
    (exampleEnv_structToMap_ok _ (by decide)) (by decide)

theorem read_error_leaves_resource_data_witness :
    (Errorf "error getting servers: rate limited" ≠ [] →
        (exampleState (some ["ewr"])).d = (exampleState (some ["ewr"])).d ∧
        (exampleState (some ["ewr"])).d.writes = (exampleState (some ["ewr"])).d.writes) ∧
      (Errorf "error getting servers: rate limited" = [] →
        ∃ out, (exampleState (some ["ewr"])).d =
            ((exampleState (some ["ewr"])).d.SetId "instances").SetInstances out ∧
          (exampleState (some ["ewr"])).d.writes =
            (exampleState (some ["ewr"])).d.writes ++
              [Write.SetId "instances", Write.Set "instances" out]) :=
  read_error_leaves_resource_data exampleEnv secondCallFails 5 (exampleState (some ["ewr"]))
    { trace := [Call.List "", Call.List "p2"], d := (exampleState (some ["ewr"])).d }
    (Errorf "error getting servers: rate limited") rfl

theorem read_list_error_aborts_witness :
    dataSourceVultrInstancesRead exampleEnv secondCallFails 2 (exampleState (some ["ewr"])) =
      some (Errorf ("error getting servers: " ++ "rate limited"),
        { trace := (exampleState (some ["ewr"])).trace ++
            (cursors "" (examplePages.take 1) ++
              [cursorAfter "" (examplePages.take 1)]).map Call.List,
          d := (exampleState (some ["ewr"])).d }) :=
  read_list_error_aborts exampleEnv secondCallFails 2 (exampleState (some ["ewr"])) ["ewr"]
    (examplePages.take 1) "rate limited" rfl (by decide) ⟨rfl, by decide, trivial⟩ rfl
    (exampleEnv_structToMap_ok _ (by decide))

theorem read_lookup_failure_aborts_witness :
    ∃ diags, diags ≠ [] ∧
      dataSourceVultrInstancesRead exampleEnv scheduleFails 3 (exampleState (some ["ewr"])) =
        some (diags,
          { trace := enrichTrace (fetchedTrace (exampleState (some ["ewr"])).trace examplePages)
                [exampleInstance "a" "ewr"] ++
              (match scheduleFails.GetBackupSchedule
                  (enrichTrace (fetchedTrace (exampleState (some ["ewr"])).trace examplePages)
                    [exampleInstance "a" "ewr"]) (exampleInstance "c" "ewr").ID with
                | Except.error _ => [Call.GetBackupSchedule (exampleInstance "c" "ewr").ID]
                | Except.ok _ => [Call.GetBackupSchedule (exampleInstance "c" "ewr").ID,
                    Call.getVPCs (exampleInstance "c" "ewr").ID]),
            d := (exampleState (some ["ewr"])).d }) :=
  read_lookup_failure_aborts exampleEnv scheduleFails 3 (exampleState (some ["ewr"])) ["ewr"]
    examplePages exampleLast [exampleInstance "a" "ewr"] [] (exampleInstance "c" "ewr")
    rfl (by decide) ⟨rfl, by decide, rfl, by decide, trivial⟩ rfl rfl
    (exampleEnv_structToMap_ok _ (by decide)) (by decide)
    ⟨⟨_, rfl⟩, ⟨_, rfl⟩, trivial⟩ (Or.inl ⟨"timeout", rfl⟩)

theorem read_without_filter_witness :
    dataSourceVultrInstancesRead exampleEnv pagedClient 0 (exampleState none) =
      some (Errorf "issue with filter: false", exampleState none) :=
  read_without_filter exampleEnv pagedClient 0 (exampleState none) rfl

theorem read_success_sets_constant_id_witness :
    ({ trace := [Call.List "", Call.List "p2", Call.List "p3", Call.GetBackupSchedule "a",
          Call.getVPCs "a", Call.GetBackupSchedule "c", Call.getVPCs "c"],
       d := ((exampleState (some ["ewr"])).d.SetId "instances").SetInstances
          [serverDetail exampleEnv.backupStatus (exampleInstance "a" "ewr") exampleSchedule
            ["vpc-a"],
           serverDetail exampleEnv.backupStatus (exampleInstance "c" "ewr") exampleSchedule
            ["vpc-c"]] } : State (List String)).d.Id = "instances" ∧
    ({ trace := [Call.List "", Call.List "p2", Call.List "p3", Call.GetBackupSchedule "a",
          Call.getVPCs "a", Call.GetBackupSchedule "c", Call.getVPCs "c"],
       d := ((exampleState (some ["ewr"])).d.SetId "instances").SetInstances
          [serverDetail exampleEnv.backupStatus (exampleInstance "a" "ewr") exampleSchedule
            ["vpc-a"],
           serverDetail exampleEnv.backupStatus (exampleInstance "c" "ewr") exampleSchedule
            ["vpc-c"]] } : State (List String)).d.Id ≠ "" :=
  read_success_sets_constant_id exampleEnv pagedClient 3 (exampleState (some ["ewr"])) _ rfl

theorem read_flatten_error_aborts_witness :
    dataSourceVultrInstancesRead exampleEnv badRecordClient 2 (exampleState (some ["ewr"])) =
      some (FromErr "unsupported type",
        { trace := (exampleState (some ["ewr"])).trace ++
            (cursors "" [(([exampleInstance "a" "ewr"], ⟨⟨"p2"⟩⟩) : Page)] ++
              [cursorAfter "" [(([exampleInstance "a" "ewr"], ⟨⟨"p2"⟩⟩) : Page)]]).map Call.List,
          d := (exampleState (some ["ewr"])).d }) :=
  read_flatten_error_aborts exampleEnv badRecordClient 2 (exampleState (some ["ewr"])) ["ewr"]
    [([exampleInstance "a" "ewr"], ⟨⟨"p2"⟩⟩)] [exampleInstance "b" "ewr"]
    [exampleInstance "c" "ewr"] (exampleInstance "bad" "ewr") ⟨⟨"p3"⟩⟩ "unsupported type"
    rfl (by decide) ⟨rfl, by decide, trivial⟩ rfl
    (exampleEnv_structToMap_ok _ (by decide)) rfl

end Vultr
